import Mathlib

/-
  Verification development for the forest-fire simulation sweep harness
  (src/data-visualization/main.py): the frame classifier and run reducer,
  the stream tailer, the sweep aggregator and the process-tree teardown.
-/

namespace ForestFire

/-- A frame's cell grid, row-major, each cell a symbol string
(`grid`/`loaded["cells"]` in main.py). -/
abbrev Grid := List (List String)

/-- Symbols classified as burning (main.py line 30). -/
def burning_symbols : List String := ["*", "**", "***", "+", "!", "&", "@"]

/-- Symbols classified as burnable (main.py line 31). -/
def burnable_symbols : List String := ["G", "T", "s", "y"]

/-- Symbols classified as burned (main.py line 32). -/
def burned_symbols : List String := ["A", "-"]

/-- Python `cell in burning_symbols`. -/
def isBurning (c : String) : Bool := burning_symbols.contains c

/-- Python `cell in burnable_symbols`. -/
def isBurnable (c : String) : Bool := burnable_symbols.contains c

/-- Python `cell in burned_symbols`. -/
def isBurned (c : String) : Bool := burned_symbols.contains c

/-- The first-frame denominator test (main.py lines 146-152):
`cell in burnable_symbols or cell in burned_symbols or cell in burning_symbols`. -/
def isDomainCell (c : String) : Bool := isBurnable c || isBurned c || isBurning c

/-- Python `sum(p(cell) for row in grid for cell in row)`. -/
def countGrid (p : String → Bool) (g : Grid) : Nat := g.flatten.countP p

/-- The result of `json.loads` on one raw line, as the harness distinguishes it
(main.py lines 132-145, 155-161): decode failure, a dict that has a "cells"
field, a bare list, or any other decoded shape. -/
inductive Line where
  | malformed : Line
  | dict : Grid → Line
  | bare : Grid → Line
  | otherShape : Line
deriving DecidableEq

/-- Grid extraction (main.py lines 140-145 and 156-161): a dict with a "cells"
field or a bare list yield a grid; anything else is skipped (`continue`),
as is a line whose decode failed. -/
def extractGrid : Line → Option Grid
  | Line.malformed => none
  | Line.dict cells => some cells
  | Line.bare cells => some cells
  | Line.otherShape => none

/-- Per-run mutable state of the poll/classify loop (main.py lines 115-121);
percentages are modelled as exact rationals. -/
structure RunState where
  frame_counter : Nat
  max_percent_burned : ℚ
  peak_fire_front : Nat
  done : Bool
  initial_burnable_count : Option Nat
  percent_burned : ℚ
deriving DecidableEq

/-- The per-run initial values (main.py lines 115-121). -/
def initialRunState : RunState :=
  { frame_counter := 0
    max_percent_burned := 0
    peak_fire_front := 0
    done := false
    initial_burnable_count := none
    percent_burned := 0 }

/-- Metric update for one decoded frame (main.py lines 163-173), with `ibc` the
denominator in use; on the first frame this also records
`initial_burnable_count` (line 146), on later frames the stored value is
passed back in unchanged. -/
def frameStep (st : RunState) (ibc : Nat) (grid : Grid) : RunState :=
  let burned := countGrid isBurned grid
  let pb : ℚ := 100 * (burned : ℚ) / (ibc : ℚ)
  let burning_now := countGrid isBurning grid
  { frame_counter := st.frame_counter + 1
    max_percent_burned := max st.max_percent_burned pb
    peak_fire_front := max st.peak_fire_front burning_now
    done := burning_now == 0
    initial_burnable_count := some ibc
    percent_burned := pb }

/-- The `for line in new_lines` body (main.py lines 132-173): skip lines that
do not yield a grid, establish the denominator on the first decoded frame
(fatal if zero, line 154), update the metrics, and stop (`break`) at the first
frame with no burning cells. -/
def processLines (st : RunState) : List Line → Except String RunState
  | [] => Except.ok st
  | l :: rest =>
    match extractGrid l with
    | none => processLines st rest
    | some grid =>
      match st.initial_burnable_count with
      | none =>
        let ibc := countGrid isDomainCell grid
        if ibc = 0 then Except.error "No burnable cells in grid!"
        else
          let st1 := frameStep st ibc grid
          if st1.done then Except.ok st1 else processLines st1 rest
      | some ibc =>
        let st1 := frameStep st ibc grid
        if st1.done then Except.ok st1 else processLines st1 rest

/-- The `while not done` poll loop (main.py lines 123-175) over the successive
batches of new lines: the run stops at the first batch whose processing sets
`done`; a fatal classification error propagates. -/
def runBatches (st : RunState) : List (List Line) → Except String RunState
  | [] => Except.ok st
  | b :: bs =>
    match processLines st b with
    | Except.error e => Except.error e
    | Except.ok st1 => if st1.done then Except.ok st1 else runBatches st1 bs

/-- One full run of the poll/classify loop from the initial per-run state. -/
def runOnce (batches : List (List Line)) : Except String RunState :=
  runBatches initialRunState batches

/-- Stream-tailer state: the count of lines already consumed
(`last_processed` in main.py). -/
structure Tailer where
  linesConsumed : Nat
deriving DecidableEq

/-- `last_processed = 1` (main.py line 114): the header line is skipped. -/
def initTailer : Tailer := { linesConsumed := 1 }

/-- One poll (main.py lines 124-127 and 175): read all lines of the file, keep
those past `linesConsumed`, and advance `linesConsumed` by the number kept. -/
def poll {α : Type} (file : List α) (t : Tailer) : List α × Tailer :=
  let newLines := file.drop t.linesConsumed
  (newLines, { linesConsumed := t.linesConsumed + newLines.length })

/-- Snapshot of an append-only text file: the newline-terminated lines so far,
plus a trailing partial line still being written (if any). -/
structure FileSnap where
  full : List String
  part : Option String

/-- Python `f.readlines()` on a snapshot: every terminated line, and the
trailing partial line as a final element when present. -/
def readlinesSnap (f : FileSnap) : List String :=
  f.full ++ f.part.toList

/-- Poll against a file snapshot. -/
def pollSnap (f : FileSnap) (t : Tailer) : List String × Tailer :=
  poll (readlinesSnap f) t

/-- `REPEATS` (main.py line 16). -/
def REPEATS : Nat := 5

/-- The repeat loop over one parameter value (main.py lines 83-181): each run
in turn, a fatal run error aborting everything. -/
def runAll : List (List (List Line)) → Except String (List RunState)
  | [] => Except.ok []
  | r :: rs =>
    match runOnce r with
    | Except.error e => Except.error e
    | Except.ok st =>
      match runAll rs with
      | Except.error e => Except.error e
      | Except.ok sts => Except.ok (st :: sts)

/-- The per-parameter-value aggregation (main.py lines 179-185): sum the runs'
`max_percent_burned` and final `percent_burned` and divide by `REPEATS`,
giving (avgMaxBurnedPercent, avgFinalBurnedPercent). -/
def aggregateRuns (results : List RunState) : ℚ × ℚ :=
  ((results.map (fun st => st.max_percent_burned)).sum / (REPEATS : ℚ),
   (results.map (fun st => st.percent_burned)).sum / (REPEATS : ℚ))

/-- Abstract OS process state seen through psutil: which pids currently exist,
the descendant enumeration a `children(recursive=True)` call returns, and
whether a signalled process exits within the 3-second wait. -/
structure ProcWorld where
  alive : Nat → Bool
  descendants : Nat → List Nat
  exitsInTime : Nat → Bool

/-- A process disappearing from the world once it has exited or been killed. -/
def removeProc (w : ProcWorld) (p : Nat) : ProcWorld :=
  { w with alive := fun q => if q = p then false else w.alive q }

/-- `psutil.Process(pid)` (main.py line 62): raises `NoSuchProcess` when the
pid does not exist. Errors carry the world at the point of the raise. -/
def psProcess (w : ProcWorld) (p : Nat) : Except (ProcWorld × String) Nat :=
  if w.alive p then Except.ok p else Except.error (w, "NoSuchProcess")

/-- `proc.terminate()` (main.py lines 65, 69): sends SIGTERM, raising
`NoSuchProcess` on an already-gone process; actual exit is resolved by the
subsequent wait. -/
def psTerminate (w : ProcWorld) (p : Nat) : Except (ProcWorld × String) ProcWorld :=
  if w.alive p then Except.ok w else Except.error (w, "NoSuchProcess")

/-- The `for child in children: child.terminate()` loop (main.py lines 64-65). -/
def terminateAll (w : ProcWorld) : List Nat → Except (ProcWorld × String) ProcWorld
  | [] => Except.ok w
  | p :: ps =>
    match psTerminate w p with
    | Except.error e => Except.error e
    | Except.ok w1 => terminateAll w1 ps

/-- `psutil.wait_procs(children, timeout=3)` (main.py line 66): partitions into
(gone, alive); the gone processes leave the world. -/
def waitProcs (w : ProcWorld) (ps : List Nat) : ProcWorld × List Nat × List Nat :=
  let gone := ps.filter (fun p => !w.alive p || w.exitsInTime p)
  let stillAlive := ps.filter (fun p => w.alive p && !w.exitsInTime p)
  (gone.foldl removeProc w, gone, stillAlive)

/-- `proc.kill()` (main.py lines 68, 73): SIGKILL, raising `NoSuchProcess` on
an already-gone process. -/
def psKill (w : ProcWorld) (p : Nat) : Except (ProcWorld × String) ProcWorld :=
  if w.alive p then Except.ok (removeProc w p) else Except.error (w, "NoSuchProcess")

/-- The `for child in alive: child.kill()` loop (main.py lines 67-68). -/
def killAll (w : ProcWorld) : List Nat → Except (ProcWorld × String) ProcWorld
  | [] => Except.ok w
  | p :: ps =>
    match psKill w p with
    | Except.error e => Except.error e
    | Except.ok w1 => killAll w1 ps

/-- `parent.wait(3)` (main.py line 71): returns at once for an already-exited
process, otherwise raises `TimeoutExpired` when the process outlives the wait. -/
def psWaitTimeout (w : ProcWorld) (p : Nat) : Except (ProcWorld × String) ProcWorld :=
  if !w.alive p then Except.ok w
  else if w.exitsInTime p then Except.ok (removeProc w p)
  else Except.error (w, "TimeoutExpired")

/-- The body of `kill_proc_tree` inside its outer `try` (main.py lines 61-73):
look up the parent, terminate every descendant, wait, kill the survivors,
then terminate the parent, waiting with a kill fallback on timeout (the inner
`except psutil.TimeoutExpired`). -/
def kill_proc_tree_body (w : ProcWorld) (pid : Nat) : Except (ProcWorld × String) ProcWorld :=
  match psProcess w pid with
  | Except.error e => Except.error e
  | Except.ok parent =>
    let children := w.descendants parent
    match terminateAll w children with
    | Except.error e => Except.error e
    | Except.ok w1 =>
      match waitProcs w1 children with
      | (w2, _gone, stillAlive) =>
        match killAll w2 stillAlive with
        | Except.error e => Except.error e
        | Except.ok w3 =>
          match psTerminate w3 parent with
          | Except.error e => Except.error e
          | Except.ok w4 =>
            match psWaitTimeout w4 parent with
            | Except.ok w5 => Except.ok w5
            | Except.error (w5, e) =>
              if e = "TimeoutExpired" then psKill w5 parent
              else Except.error (w5, e)

/-- `kill_proc_tree` (main.py lines 60-75): the whole body is wrapped in
`try ... except Exception`, so any raise is converted into a printed message
and a normal return. The returned list holds the printed messages. -/
def kill_proc_tree (w : ProcWorld) (pid : Nat) : Except String (ProcWorld × List String) :=
  match kill_proc_tree_body w pid with
  | Except.ok w1 => Except.ok (w1, [])
  | Except.error (w1, e) => Except.ok (w1, ["Could not kill process tree: " ++ e])

/-- Variant burning symbol set for the refinement comparison: the members of
`burning_symbols` that are single characters, i.e. with "**" and "***"
removed. -/
def burning_symbols_single : List String := ["*", "+", "!", "&", "@"]

/-- Variant burning test using only the single-character symbols. -/
def isBurningSingle (c : String) : Bool := burning_symbols_single.contains c

/-- Variant domain test using the single-character burning set. -/
def isDomainCellSingle (c : String) : Bool := isBurnable c || isBurned c || isBurningSingle c

/-- `frameStep` with the variant burning classifier. -/
def frameStepSingle (st : RunState) (ibc : Nat) (grid : Grid) : RunState :=
  let burned := countGrid isBurned grid
  let pb : ℚ := 100 * (burned : ℚ) / (ibc : ℚ)
  let burning_now := countGrid isBurningSingle grid
  { frame_counter := st.frame_counter + 1
    max_percent_burned := max st.max_percent_burned pb
    peak_fire_front := max st.peak_fire_front burning_now
    done := burning_now == 0
    initial_burnable_count := some ibc
    percent_burned := pb }

/-- `processLines` with the variant burning classifier. -/
def processLinesSingle (st : RunState) : List Line → Except String RunState
  | [] => Except.ok st
  | l :: rest =>
    match extractGrid l with
    | none => processLinesSingle st rest
    | some grid =>
      match st.initial_burnable_count with
      | none =>
        let ibc := countGrid isDomainCellSingle grid
        if ibc = 0 then Except.error "No burnable cells in grid!"
        else
          let st1 := frameStepSingle st ibc grid
          if st1.done then Except.ok st1 else processLinesSingle st1 rest
      | some ibc =>
        let st1 := frameStepSingle st ibc grid
        if st1.done then Except.ok st1 else processLinesSingle st1 rest

/-- The first grid successfully extracted from a list of lines, if any. -/
def firstGrid : List Line → Option Grid
  | [] => none
  | l :: ls =>
    match extractGrid l with
    | some g => some g
    | none => firstGrid ls

/- ### Helper lemmas about the run reducer -/

/-- Unfolding: the empty batch leaves the state unchanged. -/
theorem processLines_nil (st : RunState) : processLines st [] = Except.ok st := rfl

/-- Unfolding: a line yielding no grid is skipped. -/
theorem processLines_cons_none (st : RunState) (l : Line) (rest : List Line)
    (h : extractGrid l = none) :
    processLines st (l :: rest) = processLines st rest := by
  simp [processLines, h]

/-- Unfolding: the first decoded frame fixes the denominator, fatally when it
is zero. -/
theorem processLines_cons_fresh (st : RunState) (l : Line) (rest : List Line)
    (g : Grid) (h : extractGrid l = some g)
    (hibc : st.initial_burnable_count = none) :
    processLines st (l :: rest) =
      (if countGrid isDomainCell g = 0 then Except.error "No burnable cells in grid!"
       else
         if (frameStep st (countGrid isDomainCell g) g).done then
           Except.ok (frameStep st (countGrid isDomainCell g) g)
         else processLines (frameStep st (countGrid isDomainCell g) g) rest) := by
  simp [processLines, h, hibc]

/-- Unfolding: a later decoded frame reuses the stored denominator. -/
theorem processLines_cons_some (st : RunState) (l : Line) (rest : List Line)
    (g : Grid) (n : Nat) (h : extractGrid l = some g)
    (hibc : st.initial_burnable_count = some n) :
    processLines st (l :: rest) =
      (if (frameStep st n g).done then Except.ok (frameStep st n g)
       else processLines (frameStep st n g) rest) := by
  simp [processLines, h, hibc]

/-- A line yielding no grid can be removed anywhere without changing the
reducer's result. -/
theorem processLines_skip (st : RunState) (as bs : List Line) (l : Line)
    (h : extractGrid l = none) :
    processLines st (as ++ l :: bs) = processLines st (as ++ bs) := by
  induction as generalizing st with
  | nil => simp [processLines_cons_none _ _ _ h]
  | cons a as ih =>
    rw [List.cons_append, List.cons_append]
    cases hx : extractGrid a with
    | none => rw [processLines_cons_none _ _ _ hx, processLines_cons_none _ _ _ hx]; exact ih st
    | some g =>
      cases hi : st.initial_burnable_count with
      | none =>
        rw [processLines_cons_fresh _ _ _ _ hx hi, processLines_cons_fresh _ _ _ _ hx hi]
        by_cases h0 : countGrid isDomainCell g = 0
        · simp [h0]
        · simp only [h0, if_false]
          split
          · rfl
          · exact ih _
      | some n =>
        rw [processLines_cons_some _ _ _ _ _ hx hi, processLines_cons_some _ _ _ _ _ hx hi]
        split
        · rfl
        · exact ih _

/-- Lines yielding no grid at the front of a batch are all skipped. -/
theorem processLines_skip_all (st : RunState) (pre ms : List Line)
    (h : ∀ l ∈ pre, extractGrid l = none) :
    processLines st (pre ++ ms) = processLines st ms := by
  induction pre with
  | nil => rfl
  | cons a pre ih =>
    have ha : extractGrid a = none := h a (List.mem_cons_self a pre)
    simp only [List.cons_append, processLines, ha]
    exact ih fun l hl => h l (List.mem_cons_of_mem a hl)

/-- Once the denominator is recorded it is never changed by further
processing. -/
theorem processLines_ibc (ls : List Line) (st st' : RunState) (n : Nat)
    (hibc : st.initial_burnable_count = some n)
    (h : processLines st ls = Except.ok st') :
    st'.initial_burnable_count = some n := by
  induction ls generalizing st with
  | nil =>
    simp only [processLines_nil, Except.ok.injEq] at h
    exact h ▸ hibc
  | cons l rest ih =>
    cases hx : extractGrid l with
    | none =>
      rw [processLines_cons_none _ _ _ hx] at h
      exact ih st hibc h
    | some g =>
      rw [processLines_cons_some _ _ _ _ _ hx hibc] at h
      split at h
      · simp only [Except.ok.injEq] at h
        subst h
        rfl
      · exact ih _ rfl h

/-- Processing that ends normally and not done has consumed its whole batch:
appending further lines continues from the reached state. -/
theorem processLines_append (st stm : RunState) (as zs : List Line)
    (h : processLines st as = Except.ok stm) (hd : stm.done = false) :
    processLines st (as ++ zs) = processLines stm zs := by
  induction as generalizing st with
  | nil =>
    simp only [processLines_nil, Except.ok.injEq] at h
    subst h
    rfl
  | cons a as ih =>
    rw [List.cons_append]
    cases hx : extractGrid a with
    | none =>
      rw [processLines_cons_none _ _ _ hx] at h
      rw [processLines_cons_none _ _ _ hx]
      exact ih st h
    | some g =>
      cases hi : st.initial_burnable_count with
      | none =>
        rw [processLines_cons_fresh _ _ _ _ hx hi] at h
        rw [processLines_cons_fresh _ _ _ _ hx hi]
        by_cases h0 : countGrid isDomainCell g = 0
        · simp [h0] at h
        · simp only [h0, if_false] at h ⊢
          split at h
          · rename_i hdone
            simp only [Except.ok.injEq] at h
            subst h
            rw [hd] at hdone
            exact absurd hdone (by simp)
          · rename_i hdone
            rw [if_neg hdone]
            exact ih _ h
      | some n =>
        rw [processLines_cons_some _ _ _ _ _ hx hi] at h
        rw [processLines_cons_some _ _ _ _ _ hx hi]
        split at h
        · rename_i hdone
          simp only [Except.ok.injEq] at h
          subst h
          rw [hd] at hdone
          exact absurd hdone (by simp)
        · rename_i hdone
          rw [if_neg hdone]
          exact ih _ h

/-- Two batch lists with equal first-batch processing give equal run
results. -/
theorem runBatches_congr_head (st : RunState) (b b' : List Line)
    (bs : List (List Line)) (h : processLines st b = processLines st b') :
    runBatches st (b :: bs) = runBatches st (b' :: bs) := by
  simp [runBatches, h]

/-- The denominator recorded by a run from the fresh state is the domain-cell
count of the first decoded grid. -/
theorem processLines_firstGrid (ls : List Line) (st st' : RunState)
    (hibc : st.initial_burnable_count = none)
    (h : processLines st ls = Except.ok st') :
    st'.initial_burnable_count = (firstGrid ls).map (countGrid isDomainCell) := by
  induction ls generalizing st with
  | nil =>
    simp only [processLines_nil, Except.ok.injEq] at h
    subst h
    simp [firstGrid, hibc]
  | cons l rest ih =>
    cases hx : extractGrid l with
    | none =>
      rw [processLines_cons_none _ _ _ hx] at h
      rw [firstGrid, hx]
      exact ih st hibc h
    | some g =>
      rw [processLines_cons_fresh _ _ _ _ hx hibc] at h
      rw [firstGrid, hx]
      by_cases h0 : countGrid isDomainCell g = 0
      · simp [h0] at h
      · simp only [h0, if_false] at h
        split at h
        · simp only [Except.ok.injEq] at h
          subst h
          rfl
        · exact processLines_ibc rest _ st' _ rfl h

/-- The repeat loop propagates a failing run's error unchanged, whatever comes
after it. -/
theorem runAll_error_after (goodRuns : List (List (List Line))) (sts : List RunState)
    (bad : List (List Line)) (e : String) (laterRuns : List (List (List Line)))
    (hgood : runAll goodRuns = Except.ok sts)
    (hbad : runOnce bad = Except.error e) :
    runAll (goodRuns ++ bad :: laterRuns) = Except.error e := by
  induction goodRuns generalizing sts with
  | nil => simp [runAll, hbad]
  | cons r rs ih =>
    simp only [runAll] at hgood
    cases hr : runOnce r with
    | error e1 => rw [hr] at hgood; exact absurd hgood (by simp)
    | ok st =>
      rw [hr] at hgood
      cases hrs : runAll rs with
      | error e1 => rw [hrs] at hgood; exact absurd hgood (by simp)
      | ok sts1 =>
        rw [List.cons_append]
        simp only [runAll, hr, ih sts1 hrs]

/- ### Claim theorems -/

/-- C1: a run finalizes on exactly the first successfully decoded frame whose
count of Burning-classified cells is zero; that frame's `percent_burned`
is the run's final value, and no line after that frame — later in the same
poll batch (`ys`) or in any subsequent poll (`bs`) — affects the result.
Both branches of the reducer are covered: the quiet frame may follow earlier
decoded frames (`initial_burnable_count = some n` already stored) or be the
run's very first decoded frame (`initial_burnable_count` still `none`, the
quiet frame itself fixing the nonzero denominator `n`). -/
theorem run_finalizes_on_first_quiet_frame
    (st stm : RunState) (as ys : List Line) (bs : List (List Line))
    (l : Line) (g : Grid) (n : Nat)
    (h : processLines st as = Except.ok stm)
    (hnd : stm.done = false)
    (hibc : stm.initial_burnable_count = some n ∨
      (stm.initial_burnable_count = none ∧ n = countGrid isDomainCell g ∧ n ≠ 0))
    (hx : extractGrid l = some g)
    (hq : countGrid isBurning g = 0) :
    runBatches st ((as ++ l :: ys) :: bs) = Except.ok (frameStep stm n g) ∧
    (frameStep stm n g).done = true ∧
    (frameStep stm n g).percent_burned = 100 * (countGrid isBurned g : ℚ) / (n : ℚ) := by
  have hdone : (frameStep stm n g).done = true := by
    simp [frameStep, hq]
  have hpl : processLines st (as ++ l :: ys) = Except.ok (frameStep stm n g) := by
    rw [processLines_append st stm as (l :: ys) h hnd]
    rcases hibc with hsome | ⟨hnone, hn, hnz⟩
    · rw [processLines_cons_some stm l ys g n hx hsome, if_pos hdone]
    · subst hn
      rw [processLines_cons_fresh stm l ys g hx hnone, if_neg hnz, if_pos hdone]
  refine ⟨?_, hdone, rfl⟩
  simp [runBatches, hpl, hdone]

/-- C1 witness, both branches: a run whose very first decoded frame is already
quiet terminates immediately on it, and a two-frame run terminates on its
quiet second frame; in each, the trailing junk line and the whole later poll
batch leave the result unchanged. -/
theorem run_finalizes_on_first_quiet_frame_witness :
    (runBatches initialRunState
        (([Line.bare [["A"]], Line.otherShape] : List Line) :: [[Line.bare [["G"]]]]) =
      Except.ok (frameStep initialRunState 1 [["A"]]) ∧
     (frameStep initialRunState 1 [["A"]]).done = true ∧
     (frameStep initialRunState 1 [["A"]]).percent_burned =
       100 * (countGrid isBurned [["A"]] : ℚ) / ((1 : Nat) : ℚ)) ∧
    (runBatches initialRunState
        (([Line.bare [["*"]], Line.bare [["A"]], Line.otherShape] :
            List Line) :: [[Line.bare [["G"]]]]) =
      Except.ok (frameStep (frameStep initialRunState 1 [["*"]]) 1 [["A"]]) ∧
     (frameStep (frameStep initialRunState 1 [["*"]]) 1 [["A"]]).done = true ∧
     (frameStep (frameStep initialRunState 1 [["*"]]) 1 [["A"]]).percent_burned =
       100 * (countGrid isBurned [["A"]] : ℚ) / ((1 : Nat) : ℚ)) :=
  ⟨run_finalizes_on_first_quiet_frame initialRunState initialRunState
      [] [Line.otherShape] [[Line.bare [["G"]]]] (Line.bare [["A"]]) [["A"]] 1
      rfl rfl (Or.inr ⟨rfl, rfl, by decide⟩) rfl rfl,
   run_finalizes_on_first_quiet_frame initialRunState
      (frameStep initialRunState 1 [["*"]])
      [Line.bare [["*"]]] [Line.otherShape] [[Line.bare [["G"]]]]
      (Line.bare [["A"]]) [["A"]] 1 rfl rfl (Or.inl rfl) rfl rfl⟩

/-- C2: the denominator is computed exactly once per run — from the first
successfully decoded frame, as its count of burning, burnable or burned
cells — and is preserved unchanged by all later processing. -/
theorem initial_burnable_count_fixed_once
    (ls ms : List Line) (st st1 st2 : RunState) (n : Nat) :
    (processLines initialRunState ls = Except.ok st1 →
      st1.initial_burnable_count = (firstGrid ls).map (countGrid isDomainCell)) ∧
    (st.initial_burnable_count = some n → processLines st ms = Except.ok st2 →
      st2.initial_burnable_count = some n) :=
  ⟨fun h => processLines_firstGrid ls initialRunState st1 rfl h,
   fun hibc h => processLines_ibc ms st st2 n hibc h⟩

/-- C2 witness: a run whose first decoded frame is a dict-wrapped one-cell
grid records denominator 1, and a later all-burned frame leaves it at 1. -/
theorem initial_burnable_count_fixed_once_witness :
    (frameStep initialRunState 1 [["G"]]).initial_burnable_count =
      (firstGrid [Line.malformed, Line.dict [["G"]]]).map (countGrid isDomainCell) ∧
    (frameStep (frameStep initialRunState 1 [["G"]]) 1 [["A"]]).initial_burnable_count =
      some 1 :=
  ⟨(initial_burnable_count_fixed_once [Line.malformed, Line.dict [["G"]]]
      [Line.bare [["A"]]] (frameStep initialRunState 1 [["G"]])
      (frameStep initialRunState 1 [["G"]])
      (frameStep (frameStep initialRunState 1 [["G"]]) 1 [["A"]]) 1).1 rfl,
   (initial_burnable_count_fixed_once [Line.malformed, Line.dict [["G"]]]
      [Line.bare [["A"]]] (frameStep initialRunState 1 [["G"]])
      (frameStep initialRunState 1 [["G"]])
      (frameStep (frameStep initialRunState 1 [["G"]]) 1 [["A"]]) 1).2 rfl rfl⟩

/-- C3: when the first successfully decoded frame of a run has no burning,
burnable or burned cells, the reducer fails fatally from the still-initial
state, and the error aborts the whole sweep: whatever later runs were
scheduled, the sweep's result is that error. -/
theorem zero_burnable_first_frame_fatal
    (pre post : List Line) (l0 : Line) (g : Grid) (bs : List (List Line))
    (goodRuns laterRuns : List (List (List Line))) (sts : List RunState)
    (hpre : ∀ l ∈ pre, extractGrid l = none)
    (hx : extractGrid l0 = some g)
    (h0 : countGrid isDomainCell g = 0)
    (hgood : runAll goodRuns = Except.ok sts) :
    processLines initialRunState (pre ++ l0 :: post) =
      Except.error "No burnable cells in grid!" ∧
    runAll (goodRuns ++ ((pre ++ l0 :: post) :: bs) :: laterRuns) =
      Except.error "No burnable cells in grid!" := by
  have h1 : processLines initialRunState (pre ++ l0 :: post) =
      Except.error "No burnable cells in grid!" := by
    rw [processLines_skip_all initialRunState pre (l0 :: post) hpre,
        processLines_cons_fresh initialRunState l0 post g hx rfl, if_pos h0]
  refine ⟨h1, runAll_error_after goodRuns sts _ _ laterRuns hgood ?_⟩
  simp [runOnce, runBatches, h1]

/-- C3 witness: a first frame whose only cell symbol belongs to no class
aborts a sweep that still had a run scheduled after it. -/
theorem zero_burnable_first_frame_fatal_witness :
    processLines initialRunState ([Line.malformed] ++ Line.bare [["x"]] :: []) =
      Except.error "No burnable cells in grid!" ∧
    runAll (([] : List (List (List Line))) ++
        (([Line.malformed] ++ Line.bare [["x"]] :: []) :: []) :: [[[Line.bare [["A"]]]]]) =
      Except.error "No burnable cells in grid!" :=
  zero_burnable_first_frame_fatal [Line.malformed] [] (Line.bare [["x"]]) [["x"]]
    [] [] [[[Line.bare [["A"]]]]] []
    (by intro l hl; simp at hl; rw [hl]; rfl) rfl rfl rfl

/-- C5: a line that fails to decode, or decodes to a shape yielding no grid,
is skipped without error and without touching any metric; in a stream with
one malformed line between two valid frames, `frame_counter` counts exactly
the two valid frames. -/
theorem malformed_lines_skipped (st : RunState) (as bs : List Line) (l : Line)
    (h : extractGrid l = none) :
    processLines st (as ++ l :: bs) = processLines st (as ++ bs) ∧
    runOnce [[Line.bare [["*"]], Line.malformed, Line.bare [["A"]]]] =
      Except.ok (frameStep (frameStep initialRunState 1 [["*"]]) 1 [["A"]]) ∧
    (frameStep (frameStep initialRunState 1 [["*"]]) 1 [["A"]]).frame_counter = 2 :=
  ⟨processLines_skip st as bs l h, rfl, rfl⟩

/-- C5 witness: dropping a malformed line between two frames changes
nothing. -/
theorem malformed_lines_skipped_witness :
    processLines initialRunState
        ([Line.bare [["*"]]] ++ Line.malformed :: [Line.bare [["A"]]]) =
      processLines initialRunState ([Line.bare [["*"]]] ++ [Line.bare [["A"]]]) ∧
    runOnce [[Line.bare [["*"]], Line.malformed, Line.bare [["A"]]]] =
      Except.ok (frameStep (frameStep initialRunState 1 [["*"]]) 1 [["A"]]) ∧
    (frameStep (frameStep initialRunState 1 [["*"]]) 1 [["A"]]).frame_counter = 2 :=
  malformed_lines_skipped initialRunState [Line.bare [["*"]]] [Line.bare [["A"]]]
    Line.malformed rfl

/-- Percentage bounds carried by a run state. -/
def InvPct (st : RunState) : Prop :=
  0 ≤ st.percent_burned ∧ st.percent_burned ≤ 100 ∧
  0 ≤ st.max_percent_burned ∧ st.max_percent_burned ≤ 100

/-- One frame keeps the percentage bounds as long as its burned count does not
exceed the denominator. -/
theorem frameStep_pct_bounds (st : RunState) (n : Nat) (g : Grid)
    (hb : countGrid isBurned g ≤ n) (hInv : InvPct st) :
    InvPct (frameStep st n g) := by
  obtain ⟨h1, h2, h3, h4⟩ := hInv
  have hpb0 : 0 ≤ (100 : ℚ) * (countGrid isBurned g : ℚ) / (n : ℚ) := by positivity
  have hpb1 : (100 : ℚ) * (countGrid isBurned g : ℚ) / (n : ℚ) ≤ 100 := by
    rcases Nat.eq_zero_or_pos n with hz | hp
    · subst hz
      have hzero : countGrid isBurned g = 0 := Nat.le_zero.mp hb
      rw [hzero]
      norm_num
    · have hn : (0 : ℚ) < (n : ℚ) := by exact_mod_cast hp
      rw [div_le_iff₀ hn]
      have hcast : (countGrid isBurned g : ℚ) ≤ (n : ℚ) := by exact_mod_cast hb
      nlinarith
  refine ⟨hpb0, hpb1, ?_, ?_⟩
  · exact le_max_of_le_left h3
  · exact max_le h4 hpb1

/-- The percentage bounds hold at the end of any normally completed batch whose
decoded frames all have burned counts within the final denominator. -/
theorem processLines_pct_invariant (ls : List Line) (st st' : RunState) (n : Nat)
    (h : processLines st ls = Except.ok st')
    (hInv : InvPct st)
    (hibc : st.initial_burnable_count = none ∨ st.initial_burnable_count = some n)
    (hfin : st'.initial_burnable_count = some n)
    (hbound : ∀ l ∈ ls, ∀ g, extractGrid l = some g → countGrid isBurned g ≤ n) :
    InvPct st' := by
  induction ls generalizing st with
  | nil =>
    simp only [processLines_nil, Except.ok.injEq] at h
    subst h
    exact hInv
  | cons a rest ih =>
    cases hx : extractGrid a with
    | none =>
      rw [processLines_cons_none _ _ _ hx] at h
      exact ih st h hInv hibc fun l hl => hbound l (List.mem_cons_of_mem a hl)
    | some g =>
      have hgb : countGrid isBurned g ≤ n :=
        hbound a (List.mem_cons_self a rest) g hx
      rcases hibc with hi | hi
      · rw [processLines_cons_fresh _ _ _ _ hx hi] at h
        by_cases h0 : countGrid isDomainCell g = 0
        · simp [h0] at h
        · simp only [h0, if_false] at h
          have hm : countGrid isDomainCell g = n := by
            have hsome : st'.initial_burnable_count = some (countGrid isDomainCell g) := by
              split at h
              · simp only [Except.ok.injEq] at h
                subst h
                rfl
              · exact processLines_ibc rest _ st' _ rfl h
            rw [hfin] at hsome
            exact (Option.some.injEq _ _ ▸ hsome).symm
          rw [hm] at h
          have hInv1 : InvPct (frameStep st n g) := frameStep_pct_bounds st n g hgb hInv
          split at h
          · simp only [Except.ok.injEq] at h
            subst h
            exact hInv1
          · exact ih (frameStep st n g) h hInv1 (Or.inr rfl)
              fun l hl => hbound l (List.mem_cons_of_mem a hl)
      · rw [processLines_cons_some _ _ _ _ _ hx hi] at h
        have hInv1 : InvPct (frameStep st n g) := frameStep_pct_bounds st n g hgb hInv
        split at h
        · simp only [Except.ok.injEq] at h
          subst h
          exact hInv1
        · exact ih (frameStep st n g) h hInv1 (Or.inr rfl)
            fun l hl => hbound l (List.mem_cons_of_mem a hl)

/-- C4 counterexample: the claim's bound fails on the code. A run whose first
frame has one domain cell and whose terminal frame has two burned cells ends
with `percent_burned = 200`, outside [0, 100], and that value is the run's
final burned percentage (the frame is terminal). -/
theorem percent_burned_can_exceed_100 :
    processLines initialRunState [Line.bare [["*"]], Line.bare [["A", "-"]]] =
      Except.ok (frameStep (frameStep initialRunState 1 [["*"]]) 1 [["A", "-"]]) ∧
    (frameStep (frameStep initialRunState 1 [["*"]]) 1 [["A", "-"]]).done = true ∧
    (frameStep (frameStep initialRunState 1 [["*"]]) 1 [["A", "-"]]).percent_burned = 200 ∧
    ¬((frameStep (frameStep initialRunState 1 [["*"]]) 1 [["A", "-"]]).percent_burned ≤ 100) := by
  have hpb : (frameStep (frameStep initialRunState 1 [["*"]]) 1 [["A", "-"]]).percent_burned
      = 200 := by
    show (100 : ℚ) * (countGrid isBurned [["A", "-"]] : ℚ) / ((1 : Nat) : ℚ) = 200
    norm_num [countGrid, isBurned, burned_symbols]
  refine ⟨rfl, rfl, hpb, ?_⟩
  rw [hpb]
  norm_num

/-- C4 amended: for every run processed to a normal state, all per-frame
percentages — hence the final and the running maximum — lie in [0, 100]
provided every decoded frame's burned-cell count is at most the run's fixed
denominator; without that proviso the bound can fail (see the
counterexample). -/
theorem percent_burned_bounds_amended (ls : List Line) (st' : RunState) (n : Nat)
    (h : processLines initialRunState ls = Except.ok st')
    (hfin : st'.initial_burnable_count = some n)
    (hbound : ∀ l ∈ ls, ∀ g, extractGrid l = some g → countGrid isBurned g ≤ n) :
    0 ≤ st'.percent_burned ∧ st'.percent_burned ≤ 100 ∧
    0 ≤ st'.max_percent_burned ∧ st'.max_percent_burned ≤ 100 :=
  processLines_pct_invariant ls initialRunState st' n h
    ⟨le_refl 0, by norm_num [initialRunState], le_refl 0,
      by norm_num [initialRunState]⟩ (Or.inl rfl) hfin hbound

/-- C4 witness: Scenario A — a single all-burned frame terminates at once with
final percentage 100, inside the bounds. -/
theorem percent_burned_bounds_amended_witness :
    0 ≤ (frameStep initialRunState 1 [["A"]]).percent_burned ∧
    (frameStep initialRunState 1 [["A"]]).percent_burned ≤ 100 ∧
    0 ≤ (frameStep initialRunState 1 [["A"]]).max_percent_burned ∧
    (frameStep initialRunState 1 [["A"]]).max_percent_burned ≤ 100 :=
  percent_burned_bounds_amended [Line.bare [["A"]]]
    (frameStep initialRunState 1 [["A"]]) 1 rfl rfl
    (by
      intro l hl g hg
      simp only [List.mem_singleton] at hl
      subst hl
      simp only [extractGrid, Option.some.injEq] at hg
      subst hg
      decide)

/-- C6: under append-only growth, a poll returns exactly the lines at indices
at least `linesConsumed` (initialized to 1, skipping the header) and advances
`linesConsumed` by the count returned; re-polling the unchanged file returns
nothing, and a poll after an append returns only the appended suffix,
so the two polls tile the stream without overlap. -/
theorem poll_returns_only_new_lines (file1 file2 : List String) (t : Tailer)
    (hle : t.linesConsumed ≤ file1.length) (hpre : file1 <+: file2) :
    initTailer.linesConsumed = 1 ∧
    (poll file1 t).1 = file1.drop t.linesConsumed ∧
    (poll file1 t).2.linesConsumed = t.linesConsumed + (poll file1 t).1.length ∧
    (poll file1 (poll file1 t).2).1 = [] ∧
    (poll file2 (poll file1 t).2).1 = file2.drop file1.length ∧
    (poll file1 t).1 ++ (poll file2 (poll file1 t).2).1 = file2.drop t.linesConsumed := by
  obtain ⟨s, rfl⟩ := hpre
  have hlen : t.linesConsumed + (file1.drop t.linesConsumed).length = file1.length := by
    rw [List.length_drop]
    omega
  refine ⟨rfl, rfl, rfl, ?_, ?_, ?_⟩
  · show file1.drop (t.linesConsumed + (file1.drop t.linesConsumed).length) = []
    rw [hlen, List.drop_length]
  · show (file1 ++ s).drop (t.linesConsumed + (file1.drop t.linesConsumed).length) =
      (file1 ++ s).drop file1.length
    rw [hlen]
  · show file1.drop t.linesConsumed ++
        (file1 ++ s).drop (t.linesConsumed + (file1.drop t.linesConsumed).length) =
      (file1 ++ s).drop t.linesConsumed
    rw [hlen, List.drop_left, List.drop_append_of_le_length hle]

/-- C6 witness: a three-line file extending a two-line file, polled from the
initial tailer. -/
theorem poll_returns_only_new_lines_witness :
    initTailer.linesConsumed = 1 ∧
    (poll ["h", "a"] initTailer).1 = ["h", "a"].drop initTailer.linesConsumed ∧
    (poll ["h", "a"] initTailer).2.linesConsumed =
      initTailer.linesConsumed + (poll ["h", "a"] initTailer).1.length ∧
    (poll ["h", "a"] (poll ["h", "a"] initTailer).2).1 = [] ∧
    (poll ["h", "a", "b"] (poll ["h", "a"] initTailer).2).1 =
      ["h", "a", "b"].drop (["h", "a"] : List String).length ∧
    (poll ["h", "a"] initTailer).1 ++ (poll ["h", "a", "b"] (poll ["h", "a"] initTailer).2).1 =
      ["h", "a", "b"].drop initTailer.linesConsumed :=
  poll_returns_only_new_lines ["h", "a"] ["h", "a", "b"] initTailer
    (by decide) ⟨["b"], rfl⟩

/-- C7: the aggregated sweep point divides each summed metric by `REPEATS`, so
for result lists of length `REPEATS` it is the arithmetic mean of the runs'
values, and it is invariant under any permutation of the arrival order. -/
theorem sweep_point_is_mean (results results' : List RunState)
    (hlen : results.length = REPEATS) (hperm : results.Perm results') :
    aggregateRuns results = aggregateRuns results' ∧
    (aggregateRuns results).2 =
      (results.map (fun st => st.percent_burned)).sum / (results.length : ℚ) ∧
    (aggregateRuns results).1 =
      (results.map (fun st => st.max_percent_burned)).sum / (results.length : ℚ) := by
  refine ⟨?_, by rw [hlen]; rfl, by rw [hlen]; rfl⟩
  unfold aggregateRuns
  rw [(hperm.map fun st => st.max_percent_burned).sum_eq,
      (hperm.map fun st => st.percent_burned).sum_eq]

/-- C7 witness: five runs, the last two with final percentage 100, averaged
the same in reversed arrival order. -/
theorem sweep_point_is_mean_witness :
    aggregateRuns [initialRunState, initialRunState, initialRunState,
        frameStep initialRunState 1 [["A"]], frameStep initialRunState 1 [["A"]]] =
      aggregateRuns ([initialRunState, initialRunState, initialRunState,
        frameStep initialRunState 1 [["A"]], frameStep initialRunState 1 [["A"]]].reverse) ∧
    (aggregateRuns [initialRunState, initialRunState, initialRunState,
        frameStep initialRunState 1 [["A"]], frameStep initialRunState 1 [["A"]]]).2 =
      ([initialRunState, initialRunState, initialRunState,
        frameStep initialRunState 1 [["A"]], frameStep initialRunState 1 [["A"]]].map
          (fun st => st.percent_burned)).sum /
        (([initialRunState, initialRunState, initialRunState,
          frameStep initialRunState 1 [["A"]], frameStep initialRunState 1 [["A"]]] :
            List RunState).length : ℚ) ∧
    (aggregateRuns [initialRunState, initialRunState, initialRunState,
        frameStep initialRunState 1 [["A"]], frameStep initialRunState 1 [["A"]]]).1 =
      ([initialRunState, initialRunState, initialRunState,
        frameStep initialRunState 1 [["A"]], frameStep initialRunState 1 [["A"]]].map
          (fun st => st.max_percent_burned)).sum /
        (([initialRunState, initialRunState, initialRunState,
          frameStep initialRunState 1 [["A"]], frameStep initialRunState 1 [["A"]]] :
            List RunState).length : ℚ) :=
  sweep_point_is_mean _ _ rfl (List.reverse_perm _).symm

/-- C8: `kill_proc_tree` returns normally for every process state — including
a process that already exited or never existed — converting any internal
raise into a logged message; and calling it again on the world it leaves
behind also returns normally. -/
theorem kill_proc_tree_never_raises (w : ProcWorld) (pid : Nat) :
    (∃ r, kill_proc_tree w pid = Except.ok r) ∧
    (∀ r, kill_proc_tree w pid = Except.ok r →
      ∃ r2, kill_proc_tree r.1 pid = Except.ok r2) := by
  have htotal : ∀ w1 : ProcWorld, ∃ r, kill_proc_tree w1 pid = Except.ok r := by
    intro w1
    unfold kill_proc_tree
    cases hb : kill_proc_tree_body w1 pid with
    | ok w2 => exact ⟨(w2, []), rfl⟩
    | error e =>
      obtain ⟨w2, msg⟩ := e
      exact ⟨(w2, ["Could not kill process tree: " ++ msg]), rfl⟩
  exact ⟨htotal w, fun r _ => htotal r.1⟩

/-- C8 witness: tearing down a never-existing process logs and returns
normally, and so does a second call on the resulting world. -/
theorem kill_proc_tree_never_raises_witness :
    (∃ r, kill_proc_tree ⟨fun _ => false, fun _ => [], fun _ => false⟩ 0 = Except.ok r) ∧
    (∃ r2, kill_proc_tree
        (((⟨fun _ => false, fun _ => [], fun _ => false⟩ : ProcWorld),
          ["Could not kill process tree: NoSuchProcess"]).1) 0 = Except.ok r2) :=
  ⟨(kill_proc_tree_never_raises ⟨fun _ => false, fun _ => [], fun _ => false⟩ 0).1,
   (kill_proc_tree_never_raises ⟨fun _ => false, fun _ => [], fun _ => false⟩ 0).2
     ((⟨fun _ => false, fun _ => [], fun _ => false⟩ : ProcWorld),
       ["Could not kill process tree: NoSuchProcess"]) rfl⟩

/-- C9: a poll that catches a frame's line half-written returns the partial
text as its last line; the tailer still advances past it
(`linesConsumed = gs.length + 2` counts header, the `gs` full lines and the
partial), so once the line is completed on disk the next poll starts after
it and returns only the following lines — and since the partial text fails to
decode, the run's metrics are those of a stream in which that frame never
appeared. -/
theorem partial_line_skipped_never_reread
    (hdr p rest : String) (gs more : List String)
    (decode : String → Line) (st : RunState)
    (hmal : decode p = Line.malformed) :
    (pollSnap ⟨hdr :: gs, some p⟩ initTailer).1 = gs ++ [p] ∧
    (pollSnap ⟨hdr :: gs, some p⟩ initTailer).2.linesConsumed = gs.length + 2 ∧
    (pollSnap ⟨(hdr :: gs) ++ (p ++ rest) :: more, none⟩
        (pollSnap ⟨hdr :: gs, some p⟩ initTailer).2).1 = more ∧
    runBatches st [(gs ++ [p]).map decode, more.map decode] =
      runBatches st [gs.map decode, more.map decode] := by
  have h1 : (pollSnap ⟨hdr :: gs, some p⟩ initTailer).1 = gs ++ [p] := by
    simp [pollSnap, poll, readlinesSnap, initTailer]
  have h2 : (pollSnap ⟨hdr :: gs, some p⟩ initTailer).2.linesConsumed = gs.length + 2 := by
    simp [pollSnap, poll, readlinesSnap, initTailer]
    omega
  have h3 : (pollSnap ⟨(hdr :: gs) ++ (p ++ rest) :: more, none⟩
      (pollSnap ⟨hdr :: gs, some p⟩ initTailer).2).1 = more := by
    show (readlinesSnap ⟨(hdr :: gs) ++ (p ++ rest) :: more, none⟩).drop
        (pollSnap ⟨hdr :: gs, some p⟩ initTailer).2.linesConsumed = more
    rw [h2]
    show ((hdr :: gs) ++ (p ++ rest) :: more ++ []).drop (gs.length + 2) = more
    rw [List.append_nil]
    have hl : gs.length + 2 = (hdr :: gs).length + 1 := by simp
    rw [hl, List.drop_append, List.drop_succ_cons, List.drop_zero]
  have h4 : runBatches st [(gs ++ [p]).map decode, more.map decode] =
      runBatches st [gs.map decode, more.map decode] := by
    apply runBatches_congr_head
    have hskip := processLines_skip st (gs.map decode) [] Line.malformed rfl
    rw [List.append_nil] at hskip
    simpa only [List.map_append, List.map_cons, List.map_nil, hmal] using hskip
  exact ⟨h1, h2, h3, h4⟩

/-- C9 witness: a header plus a partial line "ab" that later completes to
"abc"; the first poll returns just the partial, the second poll returns
nothing new, and the reducer result matches the stream without that frame. -/
theorem partial_line_skipped_never_reread_witness :
    (pollSnap ⟨["h"], some "ab"⟩ initTailer).1 = ["ab"] ∧
    (pollSnap ⟨["h"], some "ab"⟩ initTailer).2.linesConsumed = 2 ∧
    (pollSnap ⟨["h", "ab" ++ "c"], none⟩ (pollSnap ⟨["h"], some "ab"⟩ initTailer).2).1 = [] ∧
    runBatches initialRunState [["ab"].map (fun _ => Line.malformed), []] =
      runBatches initialRunState [([] : List String).map (fun _ => Line.malformed), []] :=
  partial_line_skipped_never_reread "h" "ab" "c" [] []
    (fun _ => Line.malformed) initialRunState rfl

/-- Unfolding for the variant reducer: empty batch. -/
theorem processLinesSingle_nil (st : RunState) :
    processLinesSingle st [] = Except.ok st := rfl

/-- Unfolding for the variant reducer: a line yielding no grid. -/
theorem processLinesSingle_cons_none (st : RunState) (l : Line) (rest : List Line)
    (h : extractGrid l = none) :
    processLinesSingle st (l :: rest) = processLinesSingle st rest := by
  simp [processLinesSingle, h]

/-- Unfolding for the variant reducer: the first decoded frame. -/
theorem processLinesSingle_cons_fresh (st : RunState) (l : Line) (rest : List Line)
    (g : Grid) (h : extractGrid l = some g)
    (hibc : st.initial_burnable_count = none) :
    processLinesSingle st (l :: rest) =
      (if countGrid isDomainCellSingle g = 0 then Except.error "No burnable cells in grid!"
       else
         if (frameStepSingle st (countGrid isDomainCellSingle g) g).done then
           Except.ok (frameStepSingle st (countGrid isDomainCellSingle g) g)
         else processLinesSingle (frameStepSingle st (countGrid isDomainCellSingle g) g) rest) := by
  simp [processLinesSingle, h, hibc]

/-- Unfolding for the variant reducer: a later decoded frame. -/
theorem processLinesSingle_cons_some (st : RunState) (l : Line) (rest : List Line)
    (g : Grid) (n : Nat) (h : extractGrid l = some g)
    (hibc : st.initial_burnable_count = some n) :
    processLinesSingle st (l :: rest) =
      (if (frameStepSingle st n g).done then Except.ok (frameStepSingle st n g)
       else processLinesSingle (frameStepSingle st n g) rest) := by
  simp [processLinesSingle, h, hibc]

/-- On a single-character cell the two burning classifiers agree, and so do
the two domain classifiers. -/
theorem single_char_class_eq (c : String) (h : c.length = 1) :
    isBurningSingle c = isBurning c ∧ isDomainCellSingle c = isDomainCell c := by
  have h2 : c ≠ "**" := by
    intro he
    subst he
    exact absurd h (by decide)
  have h3 : c ≠ "***" := by
    intro he
    subst he
    exact absurd h (by decide)
  have hb : isBurningSingle c = isBurning c := by
    simp [isBurning, isBurningSingle, burning_symbols, burning_symbols_single,
      List.contains_cons, h2, h3]
  exact ⟨hb, by simp [isDomainCell, isDomainCellSingle, hb]⟩

/-- On a grid of single-character cells the two classifiers count the same. -/
theorem countGrid_single_char (g : Grid)
    (h : ∀ row ∈ g, ∀ c ∈ row, c.length = 1) :
    countGrid isBurningSingle g = countGrid isBurning g ∧
    countGrid isDomainCellSingle g = countGrid isDomainCell g := by
  have hmem : ∀ c ∈ g.flatten, c.length = 1 := by
    intro c hc
    obtain ⟨row, hrow, hcrow⟩ := List.mem_flatten.mp hc
    exact h row hrow c hcrow
  constructor
  · apply List.countP_congr
    intro c hc
    rw [(single_char_class_eq c (hmem c hc)).1]
  · apply List.countP_congr
    intro c hc
    rw [(single_char_class_eq c (hmem c hc)).2]

/-- On a grid of single-character cells the two frame updates coincide. -/
theorem frameStepSingle_eq (st : RunState) (n : Nat) (g : Grid)
    (h : ∀ row ∈ g, ∀ c ∈ row, c.length = 1) :
    frameStepSingle st n g = frameStep st n g := by
  unfold frameStepSingle frameStep
  rw [(countGrid_single_char g h).1]

/-- On a stream of single-character frames the two reducers coincide. -/
theorem processLinesSingle_eq (ls : List Line) (st : RunState)
    (h : ∀ l ∈ ls, ∀ g, extractGrid l = some g → ∀ row ∈ g, ∀ c ∈ row, c.length = 1) :
    processLinesSingle st ls = processLines st ls := by
  induction ls generalizing st with
  | nil => rfl
  | cons a rest ih =>
    have hrest : ∀ l ∈ rest, ∀ g, extractGrid l = some g →
        ∀ row ∈ g, ∀ c ∈ row, c.length = 1 :=
      fun l hl => h l (List.mem_cons_of_mem a hl)
    cases hx : extractGrid a with
    | none =>
      rw [processLinesSingle_cons_none _ _ _ hx, processLines_cons_none _ _ _ hx]
      exact ih st hrest
    | some g =>
      have hg : ∀ row ∈ g, ∀ c ∈ row, c.length = 1 :=
        h a (List.mem_cons_self a rest) g hx
      cases hi : st.initial_burnable_count with
      | none =>
        rw [processLinesSingle_cons_fresh _ _ _ _ hx hi,
          processLines_cons_fresh _ _ _ _ hx hi,
          (countGrid_single_char g hg).2, frameStepSingle_eq st _ g hg]
        split
        · rfl
        · split
          · rfl
          · exact ih _ hrest
      | some n =>
        rw [processLinesSingle_cons_some _ _ _ _ _ hx hi,
          processLines_cons_some _ _ _ _ _ hx hi, frameStepSingle_eq st n g hg]
        split
        · rfl
        · exact ih _ hrest

/-- C10: on frames whose cells are single-character strings, the
multi-character members "**" and "***" of the burning set match nothing, so
the whole reducer — denominator, burning count, peak and termination —
behaves identically to a variant whose burning set keeps only the
single-character symbols. -/
theorem multichar_burning_symbols_unreachable (st : RunState) (ls : List Line) (c : String)
    (hall : ∀ l ∈ ls, ∀ g, extractGrid l = some g → ∀ row ∈ g, ∀ cell ∈ row, cell.length = 1)
    (hc : c.length = 1) :
    processLinesSingle st ls = processLines st ls ∧
    isBurningSingle c = isBurning c ∧
    isDomainCellSingle c = isDomainCell c :=
  ⟨processLinesSingle_eq ls st hall, (single_char_class_eq c hc).1,
   (single_char_class_eq c hc).2⟩

/-- C10 witness: a one-frame stream with single-character cells "*" and "A". -/
theorem multichar_burning_symbols_unreachable_witness :
    processLinesSingle initialRunState [Line.bare [["*", "A"]]] =
      processLines initialRunState [Line.bare [["*", "A"]]] ∧
    isBurningSingle "*" = isBurning "*" ∧
    isDomainCellSingle "*" = isDomainCell "*" :=
  multichar_burning_symbols_unreachable initialRunState [Line.bare [["*", "A"]]] "*"
    (by
      intro l hl g hg row hrow cell hcell
      simp only [List.mem_singleton] at hl
      subst hl
      simp only [extractGrid, Option.some.injEq] at hg
      subst hg
      simp only [List.mem_singleton] at hrow
      subst hrow
      simp only [List.mem_cons, List.not_mem_nil, or_false] at hcell
      rcases hcell with rfl | rfl
      · rfl
      · rfl)
    rfl

end ForestFire
